import Mathlib

/-!
# SumVid Learn — verification of the usage-quota engine, content cache and quiz UI

Shallow embedding of the logic of `src/backend/routes/api.js`,
`src/Source/ContentGenerator.js`, `src/Source/QuizUIController.js` and
`src/sidebar.js`.  JavaScript strings are modelled as Lean `String`
(ASCII-faithful), JS numbers on the quota/cache paths as `Nat`/`Int`
(all values involved are small non-negative integers or timestamps),
and the key/value store `chrome.storage.local` as an association list.
External platform APIs (the WHATWG `URL` constructor, `JSON.parse`) are
modelled explicitly where the embedded functions depend on them.
-/

namespace SumVid

/-! ## JavaScript string primitives

`\s` in the source's regexes is ASCII whitespace; `String.prototype.trim`
removes leading/trailing whitespace.  Both are modelled for the ASCII
range, which is what every theorem below exercises. -/

/-- ASCII whitespace, the characters matched by the `\s` class in the
source's regexes. -/
def jsWs (c : Char) : Bool :=
  c = ' ' || c = '\t' || c = '\n' || c = '\r' || c = '\x0b' || c = '\x0c'

/-- One pass of `.replace(/\s+/g, ' ')`: every maximal whitespace run
becomes a single space.  The boolean records whether the previous kept
character came from a whitespace run. -/
def collapseWsAux : Bool → List Char → List Char
  | _, [] => []
  | prevWs, c :: rest =>
    if jsWs c then
      if prevWs then collapseWsAux true rest
      else ' ' :: collapseWsAux true rest
    else c :: collapseWsAux false rest

/-- `s.replace(/\s+/g, ' ')` from the summarize/flashcards handlers. -/
def collapseWs (s : String) : String :=
  String.mk (collapseWsAux false s.data)

/-- After an opening `[`, try to match `\d+:\d+\]` (the tail of the
timestamp regex `/\[\d+:\d+\]/`); on success return the remaining input. -/
def tryTimestamp (cs : List Char) : Option (List Char) :=
  let d1 := cs.takeWhile Char.isDigit
  let r1 := cs.dropWhile Char.isDigit
  if d1.isEmpty then none
  else
    match r1 with
    | ':' :: r2 =>
      let d2 := r2.takeWhile Char.isDigit
      let r3 := r2.dropWhile Char.isDigit
      if d2.isEmpty then none
      else
        match r3 with
        | ']' :: r4 => some r4
        | _ => none
    | _ => none

/-- Fuel-driven scanner implementing `.replace(/\[\d+:\d+\]/g, '')`:
left-to-right, non-overlapping removal of `[digits:digits]` substrings. -/
def stripTimestampsAux : Nat → List Char → List Char
  | 0, cs => cs
  | _ + 1, [] => []
  | fuel + 1, c :: rest =>
    if c = '[' then
      match tryTimestamp rest with
      | some rest' => stripTimestampsAux fuel rest'
      | none => '[' :: stripTimestampsAux fuel rest
    else c :: stripTimestampsAux fuel rest

/-- `s.replace(/\[\d+:\d+\]/g, '')` from the summarize/flashcards handlers. -/
def stripTimestamps (s : String) : String :=
  String.mk (stripTimestampsAux s.data.length s.data)

/-- Truthiness of a JS string-or-undefined value: `undefined` and the
empty string are falsy, every other string is truthy. -/
def jsTruthyStr : Option String → Bool
  | none => false
  | some s => s ≠ ""

/-- JS `a || b` on string-or-undefined values. -/
def jsOrStr (a b : Option String) : Option String :=
  if jsTruthyStr a then a else b

/-- `String.prototype.trim`: strip leading and trailing whitespace. -/
def jsTrim (s : String) : String :=
  String.mk (((s.data.dropWhile jsWs).reverse.dropWhile jsWs).reverse)

/-- Split a character list at every occurrence of `sep` (the behaviour
of `String.prototype.split` with a one-character separator). -/
def splitOnChar (sep : Char) : List Char → List (List Char)
  | [] => [[]]
  | c :: rest =>
    if c = sep then [] :: splitOnChar sep rest
    else
      match splitOnChar sep rest with
      | [] => [[c]]
      | h :: t => (c :: h) :: t

/-! ## UsageStore (server side)

The route handlers in `src/backend/routes/api.js` import
`resetDailyUsageIfNeeded` and `incrementUsage` from
`../config/usage.js`, a file that is not part of the source tree; only
its callers are.  Those two operations are therefore modelled from the
spec (§4.1 UsageStore). -/

/-- One row of the `users` table, restricted to the fields the quota
engine reads and writes. -/
structure UserRec where
  used : Nat
  limit : Nat
  lastResetAt : Nat
  premium : Bool
  deriving Repr, DecidableEq

/-- 24 hours in milliseconds, the quota window. -/
def msPerDay : Nat := 24 * 60 * 60 * 1000

/-- Modelled from the spec: `resetDailyUsageIfNeeded` lives in
`src/backend/config/usage.js`, which is missing from the tree.  Spec
§4.1: "if `now - lastResetAt >= 24h`, sets `enhancementsUsed = 0` and
`lastResetAt = now`; otherwise no-op." -/
def resetDailyUsageIfNeeded (now : Nat) (u : UserRec) : UserRec :=
  if msPerDay ≤ now - u.lastResetAt then { u with used := 0, lastResetAt := now } else u

/-- Result value of `incrementUsage`: the success flag plus the counters
it reports back to the route handler. -/
inductive IncrementResult where
  | success (used limit : Nat)
  | quotaExceeded (used limit : Nat)
  deriving Repr, DecidableEq

/-- Modelled from the spec: `incrementUsage` (`incrementIfAllowed`)
lives in `src/backend/config/usage.js`, which is missing from the tree.
Spec §4.1: "atomically checks `enhancementsUsed < enhancementsLimit`
(skipped entirely for premium users, who always succeed) and, if
allowed, increments `enhancementsUsed` by 1, returning the
post-increment counters; otherwise fails with QuotaExceeded and returns
the current (unchanged) counters".  The whole function is one atomic
step of the concurrency model below. -/
def incrementUsage (u : UserRec) : UserRec × IncrementResult :=
  if u.premium || decide (u.used < u.limit) then
    ({ u with used := u.used + 1 }, .success (u.used + 1) u.limit)
  else
    (u, .quotaExceeded u.used u.limit)

/-! ## The quota gate of the generation handlers (`src/backend/routes/api.js`)

Every generation endpoint (`/api/summarize` lines 75–102, `/api/quiz`,
`/api/qa`, `/api/chat`, `/api/flashcards`) runs the same gate:
`resetDailyUsageIfNeeded`, a `SELECT` of the two counters, a 403 when
`enhancements_used >= enhancements_limit`, then `incrementUsage`. -/

/-- Outcome of the gate, as observed by the rest of the handler. -/
inductive GateOutcome where
  | limitReached (used limit : Nat)
  | incrementFailed (used limit : Nat)
  | proceed
  deriving Repr, DecidableEq

/-- The check-then-increment sequence of the `/api/summarize` handler
(api.js lines 75–102), acting on the user's row.  The handler's own
limit check reads `enhancements_used`/`enhancements_limit` only — it
does not consult `subscription_status`. -/
def quotaGate (now : Nat) (u : UserRec) : UserRec × GateOutcome :=
  let u1 := resetDailyUsageIfNeeded now u
  if u1.limit ≤ u1.used then (u1, .limitReached u1.used u1.limit)
  else
    match incrementUsage u1 with
    | (u2, .success _ _) => (u2, .proceed)
    | (u2, .quotaExceeded a b) => (u2, .incrementFailed a b)

/-! ## The `/api/summarize` handler -/

/-- The request-body fields of `/api/summarize` that drive control flow. -/
structure SummarizeReq where
  contentType : Option String
  transcript : Option String
  text : Option String
  content : Option String
  deriving Repr

/-- The responses the summarize handler can produce.  The prompt
construction and word-count targets do not affect control flow or the
stored counters and are left inside the opaque provider call. -/
inductive HttpResponse where
  | badRequest (msg : String)
  | forbidden (used limit : Nat)
  | serverError (msg : String)
  | ok (summary : String) (used limit remaining : Nat)
  deriving Repr, DecidableEq

/-- `contentType || 'video'` (api.js line 63). -/
def effectiveType (ct : Option String) : String :=
  match jsOrStr ct (some "video") with
  | some t => t
  | none => "video"

/-- Content cleaning (api.js lines 104–112): video transcripts lose
`[m:s]` timestamps, then all content has whitespace collapsed and is
trimmed. -/
def cleanContentOf (type contentText : String) : String :=
  if type = "video" then jsTrim (collapseWs (stripTimestamps contentText))
  else jsTrim (collapseWs contentText)

/-- The `/api/summarize` handler (api.js lines 56–174) for an
authenticated user whose row exists, with the OpenAI call abstracted as
`provider` (`Except` error/summary).  Returns the final row state and
the HTTP response. -/
def summarizeHandler (now : Nat) (req : SummarizeReq) (u : UserRec)
    (provider : Except String String) : UserRec × HttpResponse :=
  if effectiveType req.contentType ≠ "video" &&
      effectiveType req.contentType ≠ "webpage" &&
      effectiveType req.contentType ≠ "pdf" then
    (u, .badRequest "Invalid contentType. Must be one of: video, webpage, pdf")
  else
    match jsOrStr req.transcript (jsOrStr req.text req.content) with
    | none => (u, .badRequest "Content text is required")
    | some contentText =>
      if contentText = "" then (u, .badRequest "Content text is required")
      else
        match quotaGate now u with
        | (u1, .limitReached a b) => (u1, .forbidden a b)
        | (u1, .incrementFailed a b) => (u1, .forbidden a b)
        | (u1, .proceed) =>
          if (cleanContentOf (effectiveType req.contentType) contentText).length < 10 then
            (u1, .badRequest "Content is too short or empty")
          else
            match provider with
            | .error e => (u1, .serverError e)
            | .ok summary => (u1, .ok summary u1.used u1.limit (u1.limit - u1.used))

/-! ## Two concurrent requests through the quota gate

The gate touches the shared `users` row in three database operations:
the reset, the `SELECT` feeding the limit check, and `incrementUsage`
(spec-modelled as one atomic conditional update).  A request is a small
program over those steps; a schedule interleaves two requests. -/

/-- Program counter of one in-flight request inside the quota gate.
`done b` records whether the request passed the gate (`b = true`) or
was rejected with QuotaExceeded (403). -/
inductive ReqPC where
  | atReset
  | atCheck
  | atIncrement
  | done (passed : Bool)
  deriving Repr, DecidableEq

/-- Shared row plus the two requests' program counters. -/
structure RaceState where
  row : UserRec
  pcA : ReqPC
  pcB : ReqPC
  deriving Repr, DecidableEq

/-- One atomic step of a single request against the shared row, following
the gate's order: reset, read-and-check, conditional increment.
A finished request does not move. -/
def reqStep (now : Nat) (row : UserRec) : ReqPC → UserRec × ReqPC
  | .atReset => (resetDailyUsageIfNeeded now row, .atCheck)
  | .atCheck =>
    if row.limit ≤ row.used then (row, .done false) else (row, .atIncrement)
  | .atIncrement =>
    match incrementUsage row with
    | (r, .success _ _) => (r, .done true)
    | (r, .quotaExceeded _ _) => (r, .done false)
  | .done b => (row, .done b)

/-- Advance request A (`who = true`) or request B (`who = false`). -/
def sysStep (now : Nat) (s : RaceState) (who : Bool) : RaceState :=
  if who then
    let (r, pc) := reqStep now s.row s.pcA
    { s with row := r, pcA := pc }
  else
    let (r, pc) := reqStep now s.row s.pcB
    { s with row := r, pcB := pc }

/-- Run a schedule (list of which-request-moves choices). -/
def raceRun (now : Nat) (s : RaceState) : List Bool → RaceState
  | [] => s
  | who :: rest => raceRun now (sysStep now s who) rest

/-- Whether a request has finished the gate. -/
def ReqPC.isDone : ReqPC → Bool
  | .done _ => true
  | _ => false

/-- Whether a request finished the gate successfully. -/
def ReqPC.passed : ReqPC → Bool
  | .done b => b
  | _ => false

/-! ## ContentCache (`src/Source/ContentGenerator.js`)

`chrome.storage.local` is modelled as an association list from keys to
entries; `set` overwrites, `remove` deletes, `get` looks up. -/

/-- The value stored under `` `${type}_${videoId}` `` (ContentGenerator.js
lines 31–35). -/
structure CacheEntry where
  content : String
  timestamp : Nat
  videoId : String
  deriving Repr, DecidableEq

/-- The extension's local key/value store. -/
def Store := List (String × CacheEntry)

/-- `chrome.storage.local.get([key])`. -/
def storeGet (st : Store) (key : String) : Option CacheEntry :=
  match st.find? (fun p => p.1 = key) with
  | some p => some p.2
  | none => none

/-- `chrome.storage.local.set({ [key]: data })`: overwrite or insert. -/
def storeSet (st : Store) (key : String) (e : CacheEntry) : Store :=
  match st with
  | [] => [(key, e)]
  | p :: rest => if p.1 = key then (key, e) :: rest else p :: storeSet rest key e

/-- `chrome.storage.local.remove([key])`. -/
def storeRemove (st : Store) (key : String) : Store :=
  st.filter (fun p => p.1 ≠ key)

/-- `CACHE_EXPIRY_TIME = 24 * 60 * 60 * 1000` (ContentGenerator.js line 9). -/
def CACHE_EXPIRY_TIME : Nat := 24 * 60 * 60 * 1000

/-- `ContentGenerator.saveGeneratedContent(videoId, type, content)`
(lines 27–43).  `videoId` is string-or-null; the guard `if (!videoId)
return` drops null (and the falsy empty string) without touching the
store.  `now` stands for `Date.now()`. -/
def saveGeneratedContent (videoId : Option String) (type content : String)
    (now : Nat) (st : Store) : Store :=
  if ¬ jsTruthyStr videoId then st
  else
    match videoId with
    | none => st
    | some v => storeSet st (type ++ "_" ++ v) ⟨content, now, v⟩

/-- `ContentGenerator.loadGeneratedContent(videoId, type)` (lines 45–67):
null identity or missing entry give null; an entry older than
`CACHE_EXPIRY_TIME` is removed and null is returned; otherwise the
stored content is returned.  Returns the result and the store after
the read's side effect. -/
def loadGeneratedContent (videoId : Option String) (type : String)
    (now : Nat) (st : Store) : Option String × Store :=
  if ¬ jsTruthyStr videoId then (none, st)
  else
    match videoId with
    | none => (none, st)
    | some v =>
      let key := type ++ "_" ++ v
      match storeGet st key with
      | none => (none, st)
      | some data =>
        if CACHE_EXPIRY_TIME < now - data.timestamp then
          (none, storeRemove st key)
        else
          (some data.content, st)

/-! ## `getVideoId` (`src/Source/ContentGenerator.js` lines 92–100)

The WHATWG `URL` constructor is an external platform API; it is
modelled here just far enough for `getVideoId`'s uses: parsing succeeds
iff the string starts with an ASCII-alphabetic scheme followed by `:`;
the query is the part after the first `?` and before any `#`; the
search parameters split on `&` and on the first `=` of each piece
(percent-decoding is not exercised by any theorem and is omitted). -/

/-- Split one `name=value` piece of a query string at its first `=`;
a piece without `=` is a parameter with empty value. -/
def splitParam (piece : List Char) : String × String :=
  let name := piece.takeWhile (fun c => c ≠ '=')
  match piece.dropWhile (fun c => c ≠ '=') with
  | [] => (String.mk name, "")
  | _ :: v => (String.mk name, String.mk v)

/-- Modelled WHATWG `new URL(url)`: `some` list of query parameters on
success, `none` when the constructor would throw (no `scheme:` prefix).
The query runs from the first `?` to the end or to the first `#`. -/
def urlParse (url : String) : Option (List (String × String)) :=
  let cs := url.data
  let scheme := cs.takeWhile Char.isAlpha
  match cs.dropWhile Char.isAlpha with
  | ':' :: _ =>
    if scheme.isEmpty then none
    else
      let afterQ :=
        match cs.dropWhile (fun c => c ≠ '?') with
        | [] => []
        | _ :: rest => rest
      let query := afterQ.takeWhile (fun c => c ≠ '#')
      if query.isEmpty then some []
      else
        some (((splitOnChar '&' query).filter (fun p => ¬ p.isEmpty)).map splitParam)
  | _ => none

/-- `searchParams.get(name)`: first parameter with that name, null when
absent. -/
def searchParamsGet (params : List (String × String)) (name : String) : Option String :=
  match params.find? (fun p => p.1 = name) with
  | some p => some p.2
  | none => none

/-- `ContentGenerator.getVideoId(url)`: `new URL(url).searchParams.get('v')`,
null when the constructor throws. -/
def getVideoId (url : String) : Option String :=
  match urlParse url with
  | none => none
  | some params => searchParamsGet params "v"

/-! ## QuizNavigator (`src/Source/QuizUIController.js` lines 324–336,
`src/sidebar.js` lines 898–909) -/

/-- The index update of `navigateQuestions(direction)`:
`Math.max(0, Math.min(totalQuestions - 1, currentQuestionIndex + direction))`.
Both copies of the function (QuizUIController and sidebar.js) use this
exact formula; the rest of the function toggles CSS classes. -/
def navigateQuestions (totalQuestions currentQuestionIndex direction : Int) : Int :=
  max 0 (min (totalQuestions - 1) (currentQuestionIndex + direction))

/-- The tally of `checkQuizAnswers` (QuizUIController.js lines 359–403):
one question contributes iff a radio button is checked, the hidden
`.correct-answer` element exists, and the selected value equals its
text.  Each question is modelled as (selected value, correct answer),
either possibly absent. -/
def checkQuizAnswersCount (questions : List (Option String × Option String)) : Nat :=
  questions.foldl
    (fun acc q =>
      match q.1, q.2 with
      | some sel, some cor => if sel = cor then acc + 1 else acc
      | _, _ => acc)
    0

/-- `Math.round((correctAnswers / totalQuestions) * 100)` from
`showQuizResultsDialog` (line 411), as exact round-half-up rational
arithmetic (exact for the quiz sizes that occur; `totalQuestions = 0`
never reaches this code). -/
def quizPercentage (correctAnswers totalQuestions : Nat) : Nat :=
  (200 * correctAnswers + totalQuestions) / (2 * totalQuestions)

/-- The tier classification of `showQuizResultsDialog` (lines 416–417 and
433–434): `percentage === 100 ? 'win' : correct === 2 ? 'ok' :
correct === 1 ? 'partial' : 'fail'`. -/
def quizResultTier (correctAnswers totalQuestions : Nat) : String :=
  if quizPercentage correctAnswers totalQuestions = 100 then "win"
  else if correctAnswers = 2 then "ok"
  else if correctAnswers = 1 then "partial"
  else "fail"

/-! ## Flashcard response parsing (`src/backend/routes/api.js` lines 719–750)

The handler extracts a bracketed span with `response.match(/\[[\s\S]*\]/)`,
runs `JSON.parse` on it (or on the whole response when no span exists),
falls back to naive line-splitting when parsing throws, then filters,
normalises and caps the card list.  `JSON.parse` is an external platform
API; it is modelled below as a standard JSON parser (strings with the
usual escapes, strict number grammar, arrays, objects; later duplicate
object keys win, as in JavaScript). -/

/-- JSON values as produced by the modelled `JSON.parse`.  Numbers keep
their raw literal (only their zero-ness feeds JS truthiness here). -/
inductive Json where
  | null
  | bool (b : Bool)
  | num (raw : String)
  | str (s : String)
  | arr (elems : List Json)
  | obj (fields : List (String × Json))

/-- Insignificant whitespace of the JSON grammar. -/
def jsonWsChar (c : Char) : Bool :=
  c = ' ' || c = '\t' || c = '\n' || c = '\r'

/-- Skip insignificant JSON whitespace. -/
def skipJsonWs (cs : List Char) : List Char :=
  cs.dropWhile jsonWsChar

/-- Hexadecimal digit value, for `\uXXXX` escapes. -/
def hexVal (c : Char) : Option Nat :=
  if '0' ≤ c ∧ c ≤ '9' then some (c.toNat - '0'.toNat)
  else if 'a' ≤ c ∧ c ≤ 'f' then some (c.toNat - 'a'.toNat + 10)
  else if 'A' ≤ c ∧ c ≤ 'F' then some (c.toNat - 'A'.toNat + 10)
  else none

/-- Single-character JSON string escapes. -/
def jsonEscChar (c : Char) : Option Char :=
  if c = '"' then some '"'
  else if c = '\\' then some '\\'
  else if c = '/' then some '/'
  else if c = 'b' then some '\x08'
  else if c = 'f' then some '\x0c'
  else if c = 'n' then some '\n'
  else if c = 'r' then some '\r'
  else if c = 't' then some '\t'
  else none

/-- Body of a JSON string, after the opening quote: returns the decoded
characters and the input after the closing quote.  Unescaped control
characters are rejected, as `JSON.parse` does. -/
def parseStringBody : List Char → Option (List Char × List Char)
  | [] => none
  | '"' :: rest => some ([], rest)
  | '\\' :: 'u' :: h1 :: h2 :: h3 :: h4 :: rest =>
    match hexVal h1, hexVal h2, hexVal h3, hexVal h4 with
    | some a, some b, some c, some d =>
      (parseStringBody rest).map
        (fun p => (Char.ofNat (a * 4096 + b * 256 + c * 16 + d) :: p.1, p.2))
    | _, _, _, _ => none
  | '\\' :: e :: rest =>
    match jsonEscChar e with
    | some c => (parseStringBody rest).map (fun p => (c :: p.1, p.2))
    | none => none
  | ['\\'] => none
  | c :: rest =>
    if c.toNat < 32 then none
    else (parseStringBody rest).map (fun p => (c :: p.1, p.2))

/-- Fraction part of a JSON number (`.digits`), or nothing. -/
def parseFracPart : List Char → Option (List Char × List Char)
  | '.' :: r =>
    let ds := r.takeWhile Char.isDigit
    if ds.isEmpty then none else some ('.' :: ds, r.dropWhile Char.isDigit)
  | cs => some ([], cs)

/-- Exponent part of a JSON number (`[eE][+-]?digits`), or nothing. -/
def parseExpPart : List Char → Option (List Char × List Char)
  | [] => some ([], [])
  | c :: r =>
    if c = 'e' ∨ c = 'E' then
      let (sg, r1) :=
        match r with
        | s :: r' => if s = '+' ∨ s = '-' then ([s], r') else (([] : List Char), s :: r')
        | [] => ([], [])
      let ds := r1.takeWhile Char.isDigit
      if ds.isEmpty then none
      else some (c :: (sg ++ ds), r1.dropWhile Char.isDigit)
    else some ([], c :: r)

/-- A JSON number literal (strict grammar: optional minus, no leading
zeros, optional fraction and exponent); returns the raw literal. -/
def parseNumberBody (cs : List Char) : Option (List Char × List Char) :=
  let (sign, r0) :=
    match cs with
    | '-' :: r => ((['-'] : List Char), r)
    | _ => ([], cs)
  match r0 with
  | [] => none
  | d :: _ =>
    if ¬ d.isDigit then none
    else
      let intPart := r0.takeWhile Char.isDigit
      let r1 := r0.dropWhile Char.isDigit
      if d = '0' ∧ 1 < intPart.length then none
      else
        match parseFracPart r1 with
        | none => none
        | some (fr, r2) =>
          match parseExpPart r2 with
          | none => none
          | some (ex, r3) => some (sign ++ intPart ++ fr ++ ex, r3)

mutual

/-- One JSON value (fuel-driven; the top level supplies enough fuel for
any input it is called on). -/
def parseJsonValue : Nat → List Char → Option (Json × List Char)
  | 0, _ => none
  | fuel + 1, cs =>
    match skipJsonWs cs with
    | [] => none
    | 'n' :: 'u' :: 'l' :: 'l' :: rest => some (.null, rest)
    | 't' :: 'r' :: 'u' :: 'e' :: rest => some (.bool true, rest)
    | 'f' :: 'a' :: 'l' :: 's' :: 'e' :: rest => some (.bool false, rest)
    | '"' :: rest =>
      (parseStringBody rest).map (fun p => (.str (String.mk p.1), p.2))
    | '[' :: rest =>
      (match skipJsonWs rest with
       | ']' :: r => some (.arr [], r)
       | rest' =>
         match parseJsonElems fuel rest' with
         | some (elems, r) => some (.arr elems, r)
         | none => none)
    | '{' :: rest =>
      (match skipJsonWs rest with
       | '}' :: r => some (.obj [], r)
       | rest' =>
         match parseJsonMembers fuel rest' with
         | some (fs, r) => some (.obj fs, r)
         | none => none)
    | cs' =>
      (parseNumberBody cs').map (fun p => (.num (String.mk p.1), p.2))

/-- Comma-separated array elements up to the closing bracket. -/
def parseJsonElems : Nat → List Char → Option (List Json × List Char)
  | 0, _ => none
  | fuel + 1, cs =>
    match parseJsonValue fuel cs with
    | none => none
    | some (v, r) =>
      match skipJsonWs r with
      | ',' :: r2 =>
        (match parseJsonElems fuel r2 with
         | some (vs, r3) => some (v :: vs, r3)
         | none => none)
      | ']' :: r2 => some ([v], r2)
      | _ => none

/-- Comma-separated object members up to the closing brace. -/
def parseJsonMembers : Nat → List Char → Option (List (String × Json) × List Char)
  | 0, _ => none
  | fuel + 1, cs =>
    match skipJsonWs cs with
    | '"' :: rest =>
      (match parseStringBody rest with
       | none => none
       | some (k, r) =>
         match skipJsonWs r with
         | ':' :: r2 =>
           (match parseJsonValue fuel r2 with
            | none => none
            | some (v, r3) =>
              match skipJsonWs r3 with
              | ',' :: r4 =>
                (match parseJsonMembers fuel r4 with
                 | some (fs, r5) => some ((String.mk k, v) :: fs, r5)
                 | none => none)
              | '}' :: r4 => some ([(String.mk k, v)], r4)
              | _ => none)
         | _ => none)
    | _ => none

end

/-- Modelled `JSON.parse`: a complete JSON value with only trailing
whitespace; `none` where `JSON.parse` throws. -/
def jsonParse (s : String) : Option Json :=
  match parseJsonValue (s.data.length + 1) s.data with
  | some (v, rest) => if (skipJsonWs rest).isEmpty then some v else none
  | none => none

/-- `response.match(/\[[\s\S]*\])/`'s result (api.js line 723): the
greedy match runs from the first `[` to the last `]`, provided that
`]` comes after the `[`. -/
def matchBracketSpan (s : String) : Option String :=
  let cs := s.data
  match cs.findIdx? (fun c => c = '[') with
  | none => none
  | some i =>
    match cs.reverse.findIdx? (fun c => c = ']') with
    | none => none
    | some rj =>
      let j := cs.length - 1 - rj
      if i < j then some (String.mk ((cs.drop i).take (j - i + 1))) else none

/-- Zero-ness of a JSON number literal: the value is zero iff every
digit of the mantissa is `0` (the exponent cannot change that). -/
def jsonNumIsZero (raw : String) : Bool :=
  (raw.data.takeWhile (fun c => c ≠ 'e' ∧ c ≠ 'E')).all
    (fun c => ¬ (c.isDigit ∧ c ≠ '0'))

/-- JavaScript truthiness of a parsed JSON value. -/
def Json.truthy : Json → Bool
  | .null => false
  | .bool b => b
  | .num raw => ¬ jsonNumIsZero raw
  | .str s => s ≠ ""
  | .arr _ => true
  | .obj _ => true

/-- Property access `value[k]`: a field of an object (later duplicate
keys win, as in `JSON.parse`), `undefined` on every other value the
filter can reach. -/
def Json.fieldGet : Json → String → Option Json
  | .obj fs, k => fs.foldl (fun acc p => if p.1 = k then some p.2 else acc) none
  | _, _ => none

/-- Truthiness of a possibly-`undefined` JS value. -/
def jsTruthyOpt : Option Json → Bool
  | some v => v.truthy
  | none => false

/-- JS `a || b` where `a` may be `undefined`. -/
def jsOrJson (a : Option Json) (b : Json) : Json :=
  match a with
  | some v => if v.truthy then v else b
  | none => b

/-- The filter of api.js line 745:
`card && (card.question || card.front) && (card.answer || card.back)`. -/
def validFlashcard (c : Json) : Bool :=
  c.truthy
    && (jsTruthyOpt (c.fieldGet "question") || jsTruthyOpt (c.fieldGet "front"))
    && (jsTruthyOpt (c.fieldGet "answer") || jsTruthyOpt (c.fieldGet "back"))

/-- The map of api.js lines 746–749: normalise each kept card to
`{question: card.question || card.front || '', answer: card.answer ||
card.back || ''}`. -/
def toFlashcard (c : Json) : Json × Json :=
  (jsOrJson (c.fieldGet "question") (jsOrJson (c.fieldGet "front") (.str "")),
   jsOrJson (c.fieldGet "answer") (jsOrJson (c.fieldGet "back") (.str "")))

/-- The catch-branch fallback (api.js lines 731–736): split the response
into lines, keep the ones that are nonempty after trimming, take the
first 10, and make a naive `Question n` / trimmed-line pair from each. -/
def flashcardsFallback (response : String) : List Json :=
  let lines := ((splitOnChar '\n' response.data).map String.mk).filter
    (fun l => jsTrim l ≠ "")
  (lines.take 10).enum.map
    (fun p =>
      Json.obj [("question", .str ("Question " ++ toString (p.1 + 1))),
                ("answer", .str (jsTrim p.2))])

/-- The try-block of api.js lines 721–728: parse the bracketed span when
one exists, otherwise the whole response; `none` when `JSON.parse`
throws (which sends the handler to the fallback). -/
def flashcardsParsed (response : String) : Option Json :=
  match matchBracketSpan response with
  | some span => jsonParse span
  | none => jsonParse response

/-- The complete response post-processing of the `/api/flashcards`
handler (api.js lines 719–750): parsed-or-fallback card list, the
non-array guard, then filter, normalise, and `slice(0, 10)`. -/
def generateFlashcardsResult (response : String) : List (Json × Json) :=
  let flashcards : List Json :=
    match flashcardsParsed response with
    | some (.arr l) => l
    | some _ => []
    | none => flashcardsFallback response
  ((flashcards.filter validFlashcard).map toFlashcard).take 10

/-! ## Helper lemmas -/

/-- Within the current quota window the reset is a no-op. -/
theorem reset_noop (now : Nat) (u : UserRec) (h : now - u.lastResetAt < msPerDay) :
    resetDailyUsageIfNeeded now u = u := by
  simp [resetDailyUsageIfNeeded, Nat.not_le.mpr h]

/-- Looking up the key just written returns the written entry. -/
theorem storeGet_set (st : Store) (key : String) (e : CacheEntry) :
    storeGet (storeSet st key e) key = some e := by
  induction st with
  | nil => simp [storeSet, storeGet, List.find?]
  | cons p rest ih =>
    by_cases h : p.1 = key
    · simp [storeSet, h, storeGet, List.find?]
    · simpa [storeSet, h, storeGet, List.find?] using ih

/-- A removed key is no longer found. -/
theorem storeGet_remove (st : Store) (key : String) :
    storeGet (storeRemove st key) key = none := by
  induction st with
  | nil => simp [storeRemove, storeGet, List.find?]
  | cons p rest ih =>
    by_cases h : p.1 = key
    · simpa [storeRemove, storeGet, h, List.find?] using ih
    · simpa [storeRemove, storeGet, h, List.filter, List.find?] using ih

/-! ## C6 — cache TTL -/

/-- C6: a cache entry written at time `T` under key
`` `${artifactType}_${contentIdentity}` `` is returned by
`loadGeneratedContent` at any `T' ` within 24 hours of `T` (store
untouched), and a read more than 24 hours after `T` returns null and
deletes the entry as a side effect of the read. -/
theorem cacheTTL (st : Store) (v type content : String) (hv : v ≠ "")
    (T T' : Nat) (_hle : T ≤ T') :
    (T' - T ≤ CACHE_EXPIRY_TIME →
      loadGeneratedContent (some v) type T' (saveGeneratedContent (some v) type content T st)
        = (some content, saveGeneratedContent (some v) type content T st)) ∧
    (CACHE_EXPIRY_TIME < T' - T →
      loadGeneratedContent (some v) type T' (saveGeneratedContent (some v) type content T st)
        = (none, storeRemove (saveGeneratedContent (some v) type content T st) (type ++ "_" ++ v)) ∧
      storeGet
        ((loadGeneratedContent (some v) type T' (saveGeneratedContent (some v) type content T st)).2)
        (type ++ "_" ++ v) = none) := by
  have hsave : saveGeneratedContent (some v) type content T st
      = storeSet st (type ++ "_" ++ v) ⟨content, T, v⟩ := by
    simp [saveGeneratedContent, jsTruthyStr, hv]
  constructor
  · intro hfresh
    rw [hsave]
    simp [loadGeneratedContent, jsTruthyStr, hv, storeGet_set, Nat.not_lt.mpr hfresh]
  · intro hexp
    rw [hsave]
    simp [loadGeneratedContent, jsTruthyStr, hv, storeGet_set, hexp, storeGet_remove]

/-- C6 witness: entry saved at `T = 0`, read at exactly 24h (fresh) and
at 24h + 1ms (expired and deleted). -/
theorem cacheTTL_witness :
    (loadGeneratedContent (some "vid") "summary" 86400000
        (saveGeneratedContent (some "vid") "summary" "body" 0 [])).1 = some "body" ∧
    (loadGeneratedContent (some "vid") "summary" 86400001
        (saveGeneratedContent (some "vid") "summary" "body" 0 [])).1 = none ∧
    storeGet (loadGeneratedContent (some "vid") "summary" 86400001
        (saveGeneratedContent (some "vid") "summary" "body" 0 [])).2 "summary_vid" = none := by
  have fresh := (cacheTTL [] "vid" "summary" "body" (by decide) 0 86400000 (by decide)).1
  have exp := (cacheTTL [] "vid" "summary" "body" (by decide) 0 86400001 (by decide)).2
  refine ⟨?_, ?_, ?_⟩
  · rw [fresh (by decide)]
  · rw [(exp (by decide)).1]
  · exact (exp (by decide)).2

/-! ## C7 — quiz navigation bounds -/

/-- C7: for an `N`-question quiz and a current index in `[0, N-1]`,
`navigateQuestions` moves next to `min (N-1) (current+1)` and previous
to `max 0 (current-1)`, never leaves `[0, N-1]`, and is a no-op at
either boundary. -/
theorem quizNavigationBounds (N i : Int) (hN : 1 ≤ N) (h0 : 0 ≤ i) (hi : i ≤ N - 1) :
    navigateQuestions N i 1 = min (N - 1) (i + 1) ∧
    navigateQuestions N i (-1) = max 0 (i - 1) ∧
    0 ≤ navigateQuestions N i 1 ∧ navigateQuestions N i 1 ≤ N - 1 ∧
    0 ≤ navigateQuestions N i (-1) ∧ navigateQuestions N i (-1) ≤ N - 1 ∧
    navigateQuestions N 0 (-1) = 0 ∧
    navigateQuestions N (N - 1) 1 = N - 1 := by
  unfold navigateQuestions
  omega

/-- C7 witness: 3-question quiz; `previous` at index 0 stays at 0, and
five consecutive `next` steps from 0 clamp at 2. -/
theorem quizNavigationBounds_witness :
    navigateQuestions 3 0 (-1) = 0 ∧
    navigateQuestions 3
      (navigateQuestions 3
        (navigateQuestions 3
          (navigateQuestions 3 (navigateQuestions 3 0 1) 1) 1) 1) 1 = 2 := by
  have h := quizNavigationBounds 3 0 (by decide) (by decide) (by decide)
  exact ⟨h.2.2.2.2.2.2.1, by decide⟩

/-! ## C8 — quiz scoring tiers -/

/-- Tallying never exceeds the accumulator plus the question count. -/
theorem checkQuizAnswersCount_le (questions : List (Option String × Option String)) :
    checkQuizAnswersCount questions ≤ questions.length := by
  suffices h : ∀ (qs : List (Option String × Option String)) (acc : Nat),
      qs.foldl
        (fun acc q =>
          match q.1, q.2 with
          | some sel, some cor => if sel = cor then acc + 1 else acc
          | _, _ => acc) acc ≤ acc + qs.length by
    simpa [checkQuizAnswersCount] using h questions 0
  intro qs
  induction qs with
  | nil => simp
  | cons q rest ih =>
    intro acc
    match h1 : q.1, h2 : q.2 with
    | some sel, some cor =>
      by_cases hc : sel = cor
      · simpa [List.foldl, h1, h2, hc, Nat.add_comm, Nat.add_assoc] using
          Nat.le_trans (ih (acc + 1)) (by omega)
      · simpa [List.foldl, h1, h2, hc] using Nat.le_trans (ih acc) (by omega)
    | some sel, none =>
      simpa [List.foldl, h1, h2] using Nat.le_trans (ih acc) (by omega)
    | none, _ =>
      simpa [List.foldl, h1] using Nat.le_trans (ih acc) (by omega)

/-- C8: for a 3-question quiz, `checkQuizAnswers` tallies the questions
whose selected choice equals the recorded correct choice, and the
results dialog classifies the tally exactly as 3 → win, 2 → ok,
1 → partial, 0 → fail. -/
theorem quizScoringTiers (questions : List (Option String × Option String))
    (h3 : questions.length = 3) :
    checkQuizAnswersCount questions ≤ 3 ∧
    (checkQuizAnswersCount questions = 3 →
      quizResultTier (checkQuizAnswersCount questions) 3 = "win") ∧
    (checkQuizAnswersCount questions = 2 →
      quizResultTier (checkQuizAnswersCount questions) 3 = "ok") ∧
    (checkQuizAnswersCount questions = 1 →
      quizResultTier (checkQuizAnswersCount questions) 3 = "partial") ∧
    (checkQuizAnswersCount questions = 0 →
      quizResultTier (checkQuizAnswersCount questions) 3 = "fail") := by
  refine ⟨h3 ▸ checkQuizAnswersCount_le questions, ?_, ?_, ?_, ?_⟩ <;>
    intro hc <;> rw [hc] <;> decide

/-- C8 witness: 3-question quizzes answered with 3, 2, 1 and 0 correct
choices report win, ok, partial and fail respectively. -/
theorem quizScoringTiers_witness :
    quizResultTier (checkQuizAnswersCount
      [(some "a", some "a"), (some "b", some "b"), (some "c", some "c")]) 3 = "win" ∧
    quizResultTier (checkQuizAnswersCount
      [(some "a", some "a"), (some "b", some "b"), (some "a", some "c")]) 3 = "ok" ∧
    quizResultTier (checkQuizAnswersCount
      [(some "a", some "a"), (some "c", some "b"), (none, some "c")]) 3 = "partial" ∧
    quizResultTier (checkQuizAnswersCount
      [(some "b", some "a"), (some "c", some "b"), (some "a", some "c")]) 3 = "fail" := by
  exact ⟨(quizScoringTiers _ (by decide)).2.1 (by decide),
         (quizScoringTiers _ (by decide)).2.2.1 (by decide),
         (quizScoringTiers _ (by decide)).2.2.2.1 (by decide),
         (quizScoringTiers _ (by decide)).2.2.2.2 (by decide)⟩

/-! ## C10 — `getVideoId` and the null-identity cache guards -/

/-- C10 (implicit): `getVideoId` returns the URL's `v` query parameter,
null when the URL cannot be parsed, and null when a well-formed URL has
no `v` parameter; and a null content identity is never written to or
read from the cache. -/
theorem getVideoIdSpec :
    (∀ url, urlParse url = none → getVideoId url = none) ∧
    (∀ url params, urlParse url = some params →
      getVideoId url = searchParamsGet params "v") ∧
    getVideoId "https://www.youtube.com/watch?v=dQw4w9WgXcQ" = some "dQw4w9WgXcQ" ∧
    getVideoId "https://example.com/page" = none ∧
    getVideoId "www.youtube.com/watch?v=abc" = none ∧
    (∀ type content now st, saveGeneratedContent none type content now st = st) ∧
    (∀ type now st, loadGeneratedContent none type now st = (none, st)) := by
  refine ⟨?_, ?_, by decide, by decide, by decide, ?_, ?_⟩
  · intro url h
    simp [getVideoId, h]
  · intro url params h
    simp [getVideoId, h]
  · intro type content now st
    simp [saveGeneratedContent, jsTruthyStr]
  · intro type now st
    simp [loadGeneratedContent, jsTruthyStr]

/-- C10 witness: the parse-failure and missing-parameter clauses applied
at concrete URLs, and the null-identity guards at a concrete store. -/
theorem getVideoIdSpec_witness :
    getVideoId "not a url" = none ∧
    getVideoId "https://example.com/a?x=1&y=2" = none ∧
    saveGeneratedContent none "summary" "body" 5 [] = [] ∧
    loadGeneratedContent none "summary" 5 [] = (none, []) := by
  refine ⟨getVideoIdSpec.1 "not a url" (by decide), ?_, ?_, ?_⟩
  · rw [getVideoIdSpec.2.1 "https://example.com/a?x=1&y=2" [("x", "1"), ("y", "2")]
      (by decide)]
    decide
  · exact getVideoIdSpec.2.2.2.2.2.1 "summary" "body" 5 []
  · exact getVideoIdSpec.2.2.2.2.2.2 "summary" 5 []

/-! ## Quota-gate lemmas shared by C2–C5 -/

/-- Within the quota window, a user under the limit passes the gate and
the counter is incremented. -/
theorem quotaGate_proceed (now : Nat) (u : UserRec)
    (hwin : now - u.lastResetAt < msPerDay) (hlt : u.used < u.limit) :
    quotaGate now u = ({ u with used := u.used + 1 }, .proceed) := by
  simp [quotaGate, reset_noop now u hwin, Nat.not_le.mpr hlt, incrementUsage, hlt]

/-- Within the quota window, a user at (or beyond) the limit is rejected
by the handler's own check, whatever the subscription status. -/
theorem quotaGate_limitReached (now : Nat) (u : UserRec)
    (hwin : now - u.lastResetAt < msPerDay) (hge : u.limit ≤ u.used) :
    quotaGate now u = (u, .limitReached u.used u.limit) := by
  simp [quotaGate, reset_noop now u hwin, hge]

/-- Whenever the gate says proceed, the stored counter is the post-reset
counter plus one. -/
theorem quotaGate_proceed_used (now : Nat) (u u1 : UserRec)
    (h : quotaGate now u = (u1, .proceed)) :
    u1.used = (resetDailyUsageIfNeeded now u).used + 1 := by
  unfold quotaGate at h
  set r := resetDailyUsageIfNeeded now u with hr
  by_cases hge : r.limit ≤ r.used
  · simp [hge] at h
  · simp only [hge, if_false] at h
    unfold incrementUsage at h
    by_cases hinc : (r.premium || decide (r.used < r.limit)) = true
    · simp only [hinc, if_true, Prod.mk.injEq] at h
      rw [← h.1]
    · simp [hinc] at h

/-! ## C2 — premium bypass -/

/-- C2 counterexample: a premium user whose row reads
`enhancementsUsed = enhancementsLimit = 10` (inside the current quota
window) is rejected by the generation handler with a 403 — the
handler's limit check is not skipped for premium users, so the request
does not succeed. -/
theorem premiumBypass_counterexample :
    quotaGate 0 ⟨10, 10, 0, true⟩ = (⟨10, 10, 0, true⟩, .limitReached 10 10) ∧
    summarizeHandler 0 ⟨some "video", some "a video transcript", none, none⟩
        ⟨10, 10, 0, true⟩ (.ok "S")
      = (⟨10, 10, 0, true⟩, .forbidden 10 10) := by
  constructor <;> decide

/-- C2 amended: the premium bypass lives only inside `incrementIfAllowed`
(spec-modelled: it succeeds for a premium user even at the limit), but
the generation handler's own pre-check compares
`enhancements_used >= enhancements_limit` without consulting the
subscription status, so a premium user's request with
`enhancementsUsed = enhancementsLimit` is rejected with 403 before
`incrementIfAllowed` is reached; a premium request passes the gate only
while `enhancementsUsed < enhancementsLimit`. -/
theorem premiumLimitNotBypassedByHandler (now : Nat) (u : UserRec)
    (hprem : u.premium = true) (hwin : now - u.lastResetAt < msPerDay)
    (hlim : u.used = u.limit) :
    (incrementUsage u).2 = .success (u.used + 1) u.limit ∧
    quotaGate now u = (u, .limitReached u.used u.limit) := by
  constructor
  · simp [incrementUsage, hprem]
  · exact quotaGate_limitReached now u hwin (Nat.le_of_eq hlim.symm)

/-- C2 witness: the amended statement at a concrete premium user at
10/10 inside the window. -/
theorem premiumLimitNotBypassedByHandler_witness :
    (incrementUsage ⟨10, 10, 0, true⟩).2 = .success 11 10 ∧
    quotaGate 5 ⟨10, 10, 0, true⟩ = (⟨10, 10, 0, true⟩, .limitReached 10 10) :=
  premiumLimitNotBypassedByHandler 5 ⟨10, 10, 0, true⟩ (by decide) (by decide) (by decide)

/-! ## C3 — sequential quota monotonicity -/

/-- `k` back-to-back runs of the gate, collecting the outcomes. -/
def gateRunList (now : Nat) : UserRec → Nat → UserRec × List GateOutcome
  | u, 0 => (u, [])
  | u, k + 1 =>
    let (u1, g) := quotaGate now u
    let (u2, gs) := gateRunList now u1 k
    (u2, g :: gs)

/-- While `used + k ≤ limit`, `k` sequential gate runs all proceed and
add exactly `k` to the counter. -/
theorem gateRunList_proceed (now lastR L : Nat) (hwin : now - lastR < msPerDay) :
    ∀ (k u0 : Nat), u0 + k ≤ L →
      gateRunList now ⟨u0, L, lastR, false⟩ k
        = (⟨u0 + k, L, lastR, false⟩, List.replicate k .proceed) := by
  intro k
  induction k with
  | zero => intro u0 _; simp [gateRunList]
  | succ n ih =>
    intro u0 hle
    have hstep := quotaGate_proceed now ⟨u0, L, lastR, false⟩ hwin (by simp; omega)
    have hrest := ih (u0 + 1) (by omega)
    have harith : u0 + 1 + n = u0 + (n + 1) := by omega
    rw [harith] at hrest
    simp [gateRunList, hstep, hrest, List.replicate_succ]

/-- C3: a freemium user starting at `enhancementsUsed = u0 < limit`
(inside the current quota window) passes the gate on each of the next
`limit - u0` sequential requests, ending with `enhancementsUsed =
limit`; the next request is rejected with QuotaExceeded carrying the
current counters, and the counter is left unchanged. -/
theorem quotaMonotonicity (now lastR L u0 : Nat) (hlt : u0 < L)
    (hwin : now - lastR < msPerDay) :
    gateRunList now ⟨u0, L, lastR, false⟩ (L - u0)
      = (⟨L, L, lastR, false⟩, List.replicate (L - u0) .proceed) ∧
    quotaGate now ⟨L, L, lastR, false⟩
      = (⟨L, L, lastR, false⟩, .limitReached L L) := by
  constructor
  · have h := gateRunList_proceed now lastR L hwin (L - u0) u0 (by omega)
    have harith : u0 + (L - u0) = L := by omega
    rwa [harith] at h
  · exact quotaGate_limitReached now ⟨L, L, lastR, false⟩ hwin (by simp)

/-- C3 witness: a freemium user at 7/10 inside the window; three gate
runs all proceed, land at 10/10, and the fourth is a 403 with the
counters, leaving the row unchanged. -/
theorem quotaMonotonicity_witness :
    gateRunList 5 ⟨7, 10, 0, false⟩ 3
      = (⟨10, 10, 0, false⟩, [.proceed, .proceed, .proceed]) ∧
    quotaGate 5 ⟨10, 10, 0, false⟩ = (⟨10, 10, 0, false⟩, .limitReached 10 10) := by
  have h := quotaMonotonicity 5 0 10 7 (by decide) (by decide)
  exact ⟨h.1, h.2⟩

/-! ## C4 — increment before the provider call, no refund on failure -/

/-- C4: when a summarize request passes validation and the quota gate
and the provider call then fails, the handler responds with a 500
carrying the provider's message and the usage counter keeps its
incremented value — the increment happens before the provider call and
is not refunded. -/
theorem incrementNotRefundedOnProviderError (now : Nat) (req : SummarizeReq)
    (u : UserRec) (e ct : String)
    (htype : effectiveType req.contentType = "video" ∨
      effectiveType req.contentType = "webpage" ∨
      effectiveType req.contentType = "pdf")
    (hct : jsOrStr req.transcript (jsOrStr req.text req.content) = some ct)
    (hne : ct ≠ "")
    (hwin : now - u.lastResetAt < msPerDay) (hlt : u.used < u.limit)
    (hlong : 10 ≤ (cleanContentOf (effectiveType req.contentType) ct).length) :
    summarizeHandler now req u (.error e)
      = ({ u with used := u.used + 1 }, .serverError e) := by
  unfold summarizeHandler
  rcases htype with h | h | h <;>
    simp [h, hct, hne, quotaGate_proceed now u hwin hlt,
      Nat.not_lt.mpr (h ▸ hlong)]

/-- C4 witness: a valid webpage request at 3/10 with a failing provider
ends as a 500 with the counter at 4. -/
theorem incrementNotRefundedOnProviderError_witness :
    summarizeHandler 0
        ⟨some "webpage", none, some "a sufficiently long page text", none⟩
        ⟨3, 10, 0, false⟩ (.error "OpenAI API error: boom")
      = (⟨4, 10, 0, false⟩, .serverError "OpenAI API error: boom") :=
  incrementNotRefundedOnProviderError 0
    ⟨some "webpage", none, some "a sufficiently long page text", none⟩
    ⟨3, 10, 0, false⟩ "OpenAI API error: boom" "a sufficiently long page text"
    (by decide) (by decide) (by decide) (by decide) (by decide) (by decide)

/-! ## C5 — validation errors and side effects -/

/-- C5 counterexample: a request whose content text is present but
cleans to fewer than 10 characters is answered with the
`Content is too short or empty` 400 — yet the usage counter has already
been incremented (0 → 1), so this ValidationError does have a side
effect. -/
theorem validationError_counterexample :
    summarizeHandler 0 ⟨some "webpage", none, some "hi", none⟩ ⟨0, 10, 0, false⟩ (.ok "S")
      = (⟨1, 10, 0, false⟩, .badRequest "Content is too short or empty") := by
  decide

/-- C5 amended: the 400s issued before the quota gate (invalid
`contentType`, missing content text) leave the user's row untouched,
but the `Content is too short or empty` 400 is issued after
`incrementUsage`, so a request that ends in that 400 leaves the counter
incremented by one (over its post-reset value). -/
theorem validationErrorSideEffects (now : Nat) (req : SummarizeReq)
    (u u' : UserRec) (provider : Except String String) (msg : String)
    (h : summarizeHandler now req u provider = (u', .badRequest msg)) :
    (msg ≠ "Content is too short or empty" → u' = u) ∧
    (msg = "Content is too short or empty" →
      u'.used = (resetDailyUsageIfNeeded now u).used + 1) := by
  unfold summarizeHandler at h
  split at h
  · simp only [Prod.mk.injEq, HttpResponse.badRequest.injEq] at h
    obtain ⟨hu, hmsg⟩ := h
    subst hmsg
    exact ⟨fun _ => hu.symm, fun hc => absurd hc (by decide)⟩
  · split at h
    · simp only [Prod.mk.injEq, HttpResponse.badRequest.injEq] at h
      obtain ⟨hu, hmsg⟩ := h
      subst hmsg
      exact ⟨fun _ => hu.symm, fun hc => absurd hc (by decide)⟩
    · split at h
      · simp only [Prod.mk.injEq, HttpResponse.badRequest.injEq] at h
        obtain ⟨hu, hmsg⟩ := h
        subst hmsg
        exact ⟨fun _ => hu.symm, fun hc => absurd hc (by decide)⟩
      · split at h
        · simp at h
        · simp at h
        · split at h
          · simp only [Prod.mk.injEq, HttpResponse.badRequest.injEq] at h
            obtain ⟨hu, hmsg⟩ := h
            subst hmsg
            refine ⟨fun hne => absurd rfl hne, fun _ => ?_⟩
            rw [← hu]
            exact quotaGate_proceed_used now u _ (by assumption)
          · split at h
            · simp at h
            · simp at h

/-- C5 witness: the amended statement applied to the counterexample
request (too-short content at 0/10 → 400 with the counter at 1) and to
a missing-content request (400 with the row untouched). -/
theorem validationErrorSideEffects_witness :
    (⟨1, 10, 0, false⟩ : UserRec).used
        = (resetDailyUsageIfNeeded 0 ⟨0, 10, 0, false⟩).used + 1 ∧
    (⟨0, 10, 0, false⟩ : UserRec) = ⟨0, 10, 0, false⟩ := by
  constructor
  · exact (validationErrorSideEffects 0 ⟨some "webpage", none, some "hi", none⟩
      ⟨0, 10, 0, false⟩ ⟨1, 10, 0, false⟩ (.ok "S") "Content is too short or empty"
      (by decide)).2 rfl
  · exact (validationErrorSideEffects 0 ⟨some "webpage", none, none, none⟩
      ⟨0, 10, 0, false⟩ ⟨0, 10, 0, false⟩ (.ok "S") "Content text is required"
      (by decide)).1 (by decide)

/-! ## C1 — the concurrent increment race -/

/-- 1 iff the request finished the gate successfully. -/
def passFlag : ReqPC → Nat
  | .done true => 1
  | _ => 0

/-- Number of the two requests that passed the gate. -/
def succCount (s : RaceState) : Nat :=
  passFlag s.pcA + passFlag s.pcB

/-- Invariant of the two-request race started at `used = L - 1` inside
the current quota window: the row's static fields are stable, the
counter has moved from `L - 1` to `L` exactly when one success has been
recorded, and any rejected request saw the counter already at `L`. -/
def RaceInv (L last : Nat) (s : RaceState) : Prop :=
  s.row.limit = L ∧ s.row.lastResetAt = last ∧ s.row.premium = false ∧
  ((s.row.used = L - 1 ∧ succCount s = 0) ∨ (s.row.used = L ∧ succCount s = 1)) ∧
  (s.pcA = .done false → s.row.used = L) ∧
  (s.pcB = .done false → s.row.used = L)

/-- Every interleaving step preserves the race invariant. -/
theorem raceInv_step (L last now : Nat) (hL : 1 ≤ L) (hwin : now - last < msPerDay)
    (s : RaceState) (h : RaceInv L last s) (who : Bool) :
    RaceInv L last (sysStep now s who) := by
  obtain ⟨row, pcA, pcB⟩ := s
  obtain ⟨hlim, hlast, hprem, hdisj, hA, hB⟩ := h
  simp only at hlim hlast hprem hA hB
  have hreset : resetDailyUsageIfNeeded now row = row := by
    apply reset_noop
    rw [hlast]
    exact hwin
  cases who with
  | true =>
    cases pcA with
    | atReset =>
      have hstep : sysStep now ⟨row, .atReset, pcB⟩ true = ⟨row, .atCheck, pcB⟩ := by
        simp [sysStep, reqStep, hreset]
      rw [hstep]
      refine ⟨hlim, hlast, hprem, hdisj, ?_, hB⟩
      intro hc
      simp at hc
    | atCheck =>
      rcases hdisj with ⟨hused, hsucc⟩ | ⟨hused, hsucc⟩
      · have hcond : ¬ row.limit ≤ row.used := by
          rw [hlim, hused]
          omega
        have hstep : sysStep now ⟨row, .atCheck, pcB⟩ true = ⟨row, .atIncrement, pcB⟩ := by
          simp [sysStep, reqStep, hcond]
        rw [hstep]
        refine ⟨hlim, hlast, hprem, Or.inl ⟨hused, hsucc⟩, ?_, hB⟩
        intro hc
        simp at hc
      · have hcond : row.limit ≤ row.used := by
          rw [hlim, hused]
        have hstep : sysStep now ⟨row, .atCheck, pcB⟩ true = ⟨row, .done false, pcB⟩ := by
          simp [sysStep, reqStep, hcond]
        rw [hstep]
        exact ⟨hlim, hlast, hprem, Or.inr ⟨hused, hsucc⟩, fun _ => hused, hB⟩
    | atIncrement =>
      rcases hdisj with ⟨hused, hsucc⟩ | ⟨hused, hsucc⟩
      · have hlt : row.used < row.limit := by
          rw [hlim, hused]
          omega
        have hstep : sysStep now ⟨row, .atIncrement, pcB⟩ true
            = ⟨{ row with used := row.used + 1 }, .done true, pcB⟩ := by
          simp [sysStep, reqStep, incrementUsage, hlt]
        rw [hstep]
        have husedL : row.used + 1 = L := by
          rw [hused]
          omega
        have h0 : 0 + passFlag pcB = 0 := hsucc
        refine ⟨hlim, hlast, hprem, ?_, ?_, fun _ => husedL⟩
        · right
          refine ⟨husedL, ?_⟩
          show 1 + passFlag pcB = 1
          omega
        · intro hc
          simp at hc
      · have hnlt : ¬ row.used < row.limit := by
          rw [hlim, hused]
          omega
        have hstep : sysStep now ⟨row, .atIncrement, pcB⟩ true = ⟨row, .done false, pcB⟩ := by
          simp [sysStep, reqStep, incrementUsage, hprem, hnlt]
        rw [hstep]
        exact ⟨hlim, hlast, hprem, Or.inr ⟨hused, hsucc⟩, fun _ => hused, hB⟩
    | done b =>
      have hstep : sysStep now ⟨row, .done b, pcB⟩ true = ⟨row, .done b, pcB⟩ := by
        simp [sysStep, reqStep]
      rw [hstep]
      exact ⟨hlim, hlast, hprem, hdisj, hA, hB⟩
  | false =>
    cases pcB with
    | atReset =>
      have hstep : sysStep now ⟨row, pcA, .atReset⟩ false = ⟨row, pcA, .atCheck⟩ := by
        simp [sysStep, reqStep, hreset]
      rw [hstep]
      refine ⟨hlim, hlast, hprem, hdisj, hA, ?_⟩
      intro hc
      simp at hc
    | atCheck =>
      rcases hdisj with ⟨hused, hsucc⟩ | ⟨hused, hsucc⟩
      · have hcond : ¬ row.limit ≤ row.used := by
          rw [hlim, hused]
          omega
        have hstep : sysStep now ⟨row, pcA, .atCheck⟩ false = ⟨row, pcA, .atIncrement⟩ := by
          simp [sysStep, reqStep, hcond]
        rw [hstep]
        refine ⟨hlim, hlast, hprem, Or.inl ⟨hused, hsucc⟩, hA, ?_⟩
        intro hc
        simp at hc
      · have hcond : row.limit ≤ row.used := by
          rw [hlim, hused]
        have hstep : sysStep now ⟨row, pcA, .atCheck⟩ false = ⟨row, pcA, .done false⟩ := by
          simp [sysStep, reqStep, hcond]
        rw [hstep]
        exact ⟨hlim, hlast, hprem, Or.inr ⟨hused, hsucc⟩, hA, fun _ => hused⟩
    | atIncrement =>
      rcases hdisj with ⟨hused, hsucc⟩ | ⟨hused, hsucc⟩
      · have hlt : row.used < row.limit := by
          rw [hlim, hused]
          omega
        have hstep : sysStep now ⟨row, pcA, .atIncrement⟩ false
            = ⟨{ row with used := row.used + 1 }, pcA, .done true⟩ := by
          simp [sysStep, reqStep, incrementUsage, hlt]
        rw [hstep]
        have husedL : row.used + 1 = L := by
          rw [hused]
          omega
        have h0 : passFlag pcA + 0 = 0 := hsucc
        refine ⟨hlim, hlast, hprem, ?_, fun _ => husedL, ?_⟩
        · right
          refine ⟨husedL, ?_⟩
          show passFlag pcA + 1 = 1
          omega
        · intro hc
          simp at hc
      · have hnlt : ¬ row.used < row.limit := by
          rw [hlim, hused]
          omega
        have hstep : sysStep now ⟨row, pcA, .atIncrement⟩ false = ⟨row, pcA, .done false⟩ := by
          simp [sysStep, reqStep, incrementUsage, hprem, hnlt]
        rw [hstep]
        exact ⟨hlim, hlast, hprem, Or.inr ⟨hused, hsucc⟩, hA, fun _ => hused⟩
    | done b =>
      have hstep : sysStep now ⟨row, pcA, .done b⟩ false = ⟨row, pcA, .done b⟩ := by
        simp [sysStep, reqStep]
      rw [hstep]
      exact ⟨hlim, hlast, hprem, hdisj, hA, hB⟩

/-- The race invariant survives a whole schedule. -/
theorem raceRun_inv (L last now : Nat) (hL : 1 ≤ L) (hwin : now - last < msPerDay) :
    ∀ (sched : List Bool) (s : RaceState),
      RaceInv L last s → RaceInv L last (raceRun now s sched) := by
  intro sched
  induction sched with
  | nil => intro s h; exact h
  | cons who rest ih =>
    intro s h
    exact ih _ (raceInv_step L last now hL hwin s h who)

/-- The race invariant holds initially. -/
theorem raceInv_init (L last : Nat) :
    RaceInv L last ⟨⟨L - 1, L, last, false⟩, .atReset, .atReset⟩ := by
  refine ⟨rfl, rfl, rfl, .inl ⟨rfl, rfl⟩, ?_, ?_⟩ <;>
    (intro h; simp at h)

/-- C1: starting from a freemium row with exactly one quota slot left
(`used = limit - 1`, inside the current window), any interleaving of
two requests through the gate that completes both ends with the counter
at the limit and exactly one request passed, the other rejected with
QuotaExceeded — never two successes.  The check-then-increment of
`incrementIfAllowed` is modelled as a single atomic step
(spec-modelled from §4.1, `src/backend/config/usage.js` being absent
from the tree). -/
theorem concurrentIncrementRace (L last now : Nat) (hL : 1 ≤ L)
    (hwin : now - last < msPerDay) (sched : List Bool)
    (hA : (raceRun now ⟨⟨L - 1, L, last, false⟩, .atReset, .atReset⟩ sched).pcA.isDone = true)
    (hB : (raceRun now ⟨⟨L - 1, L, last, false⟩, .atReset, .atReset⟩ sched).pcB.isDone = true) :
    (raceRun now ⟨⟨L - 1, L, last, false⟩, .atReset, .atReset⟩ sched).row.used = L ∧
    (((raceRun now ⟨⟨L - 1, L, last, false⟩, .atReset, .atReset⟩ sched).pcA = .done true ∧
      (raceRun now ⟨⟨L - 1, L, last, false⟩, .atReset, .atReset⟩ sched).pcB = .done false) ∨
     ((raceRun now ⟨⟨L - 1, L, last, false⟩, .atReset, .atReset⟩ sched).pcA = .done false ∧
      (raceRun now ⟨⟨L - 1, L, last, false⟩, .atReset, .atReset⟩ sched).pcB = .done true)) := by
  have hinv := raceRun_inv L last now hL hwin sched _ (raceInv_init L last)
  set sf := raceRun now ⟨⟨L - 1, L, last, false⟩, .atReset, .atReset⟩ sched with hsf
  obtain ⟨hlim, hlast, hprem, hdisj, hDA, hDB⟩ := hinv
  obtain ⟨a, hpa⟩ : ∃ a, sf.pcA = .done a := by
    cases hpc : sf.pcA <;> simp [hpc, ReqPC.isDone] at hA ⊢
  obtain ⟨b, hpb⟩ : ∃ b, sf.pcB = .done b := by
    cases hpc : sf.pcB <;> simp [hpc, ReqPC.isDone] at hB ⊢
  rcases hdisj with ⟨hused, hsucc⟩ | ⟨hused, hsucc⟩
  · exfalso
    cases a <;> cases b <;>
      simp [succCount, passFlag, hpa, hpb] at hsucc
    have h1 := hDA (by rw [hpa])
    omega
  · refine ⟨hused, ?_⟩
    cases a <;> cases b <;>
      simp [succCount, passFlag, hpa, hpb] at hsucc ⊢

/-- C1 witness: limit 10, used 9, a completing schedule — request A
passes, request B is rejected, counter ends at 10. -/
theorem concurrentIncrementRace_witness :
    (raceRun 5 ⟨⟨9, 10, 0, false⟩, .atReset, .atReset⟩
        [true, true, true, false, false, false]).row.used = 10 ∧
    (((raceRun 5 ⟨⟨9, 10, 0, false⟩, .atReset, .atReset⟩
        [true, true, true, false, false, false]).pcA = .done true ∧
      (raceRun 5 ⟨⟨9, 10, 0, false⟩, .atReset, .atReset⟩
        [true, true, true, false, false, false]).pcB = .done false) ∨
     ((raceRun 5 ⟨⟨9, 10, 0, false⟩, .atReset, .atReset⟩
        [true, true, true, false, false, false]).pcA = .done false ∧
      (raceRun 5 ⟨⟨9, 10, 0, false⟩, .atReset, .atReset⟩
        [true, true, true, false, false, false]).pcB = .done true)) :=
  concurrentIncrementRace 10 0 5 (by decide) (by decide)
    [true, true, true, false, false, false] (by decide) (by decide)

/-! ## C9 — flashcard parse resilience -/

/-- A `Question n` label is never the empty string. -/
theorem question_label_ne_empty (s : String) : ("Question " ++ s) ≠ "" := by
  intro h
  have hdata := congrArg String.data h
  rw [String.data_append] at hdata
  simp at hdata

/-- Processing the naive fallback cards: every one survives the validity
filter and normalises back to its question/answer pair. -/
theorem fallback_cards_process (k : Nat) (ls : List String)
    (h : ∀ l ∈ ls, jsTrim l ≠ "") :
    ((((ls.enumFrom k).map (fun p => Json.obj
          [("question", .str ("Question " ++ toString (p.1 + 1))),
           ("answer", .str (jsTrim p.2))])).filter validFlashcard).map toFlashcard)
      = (ls.enumFrom k).map
          (fun p => (Json.str ("Question " ++ toString (p.1 + 1)),
            Json.str (jsTrim p.2))) := by
  induction ls generalizing k with
  | nil => rfl
  | cons x rest ih =>
    have hx : jsTrim x ≠ "" := h x (by simp)
    have hrest := ih (k + 1) (fun l hl => h l (by simp [hl]))
    have hv : validFlashcard (Json.obj
        [("question", .str ("Question " ++ toString (k + 1))),
         ("answer", .str (jsTrim x))]) = true := by
      simp [validFlashcard, Json.truthy, Json.fieldGet, jsTruthyOpt,
        question_label_ne_empty, hx]
    have htf : toFlashcard (Json.obj
        [("question", .str ("Question " ++ toString (k + 1))),
         ("answer", .str (jsTrim x))])
        = (Json.str ("Question " ++ toString (k + 1)), Json.str (jsTrim x)) := by
      simp [toFlashcard, jsOrJson, Json.fieldGet, Json.truthy,
        question_label_ne_empty, hx]
    simp only [List.enumFrom, List.map, List.filter, hv, htf]
    rw [hrest]

/-- C9: for every provider response, the flashcards handler returns at
most 10 cards; when the response contains a parseable JSON array
(possibly wrapped in prose or code fences) of well-formed cards, that
embedded array is returned (normalised); and when nothing parses as
JSON the handler does not fail but returns the naive line-split
question/answer pairs. -/
theorem flashcardParseResilience (response : String) :
    (generateFlashcardsResult response).length ≤ 10 ∧
    (∀ l, flashcardsParsed response = some (.arr l) →
      (∀ c ∈ l, validFlashcard c = true) → l.length ≤ 10 →
      generateFlashcardsResult response = l.map toFlashcard) ∧
    (flashcardsParsed response = none →
      generateFlashcardsResult response
        = ((((splitOnChar '\n' response.data).map String.mk).filter
              (fun l => jsTrim l ≠ "")).take 10).enum.map
            (fun p => (Json.str ("Question " ++ toString (p.1 + 1)),
              Json.str (jsTrim p.2)))) := by
  refine ⟨?_, ?_, ?_⟩
  · unfold generateFlashcardsResult
    exact List.length_take_le 10 _
  · intro l hp hvalid hlen
    unfold generateFlashcardsResult
    rw [hp]
    simp only
    rw [List.filter_eq_self.mpr hvalid]
    exact List.take_of_length_le (by simpa using hlen)
  · intro hp
    unfold generateFlashcardsResult
    rw [hp]
    simp only [flashcardsFallback]
    have hmem : ∀ l ∈ (((splitOnChar '\n' response.data).map String.mk).filter
        (fun l => jsTrim l ≠ "")).take 10, jsTrim l ≠ "" := by
      intro l hl
      have := List.of_mem_filter (List.mem_of_mem_take hl)
      simpa using this
    rw [List.enum_eq_enumFrom]
    rw [fallback_cards_process 0 _ hmem]
    rw [← List.enum_eq_enumFrom]
    apply List.take_of_length_le
    rw [List.length_map, List.enum_length]
    exact le_trans (List.length_take_le 10 _) (le_refl 10)

/-- C9 witness: a JSON array wrapped in prose is extracted and returned;
plain free text falls back to naive `Question n` pairs; both stay within
the 10-card cap. -/
theorem flashcardParseResilience_witness :
    generateFlashcardsResult
        "Here are your cards: [\x7b\"question\":\"What is X?\",\"answer\":\"Y.\"\x7d] Enjoy!"
      = [(Json.str "What is X?", Json.str "Y.")] ∧
    generateFlashcardsResult "What is A?\nIt is B."
      = [(Json.str "Question 1", Json.str "What is A?"),
         (Json.str "Question 2", Json.str "It is B.")] ∧
    (generateFlashcardsResult
        "Here are your cards: [\x7b\"question\":\"What is X?\",\"answer\":\"Y.\"\x7d] Enjoy!").length ≤ 10 ∧
    (generateFlashcardsResult "What is A?\nIt is B.").length ≤ 10 := by
  refine ⟨?_, ?_, ?_, ?_⟩
  · exact (flashcardParseResilience _).2.1
      [Json.obj [("question", .str "What is X?"), ("answer", .str "Y.")]]
      rfl
      (by
        intro c hc
        rw [List.mem_singleton] at hc
        subst hc
        rfl)
      (by decide)
  · exact (flashcardParseResilience _).2.2 rfl
  · exact (flashcardParseResilience _).1
  · exact (flashcardParseResilience _).1

end SumVid
